import Mathlib

/-!
Verification development for the compliance-scanner backend
(`backend/scanner.py`, `backend/app.py`).

Python dict-shaped violation records are embedded as a structure of
optional fields: every access in the source goes through `dict.get`,
which returns `None` both for a missing key and for an explicit `None`
value, so a missing key and a `None` value are identified as `none`
(`setdefault` correspondingly becomes fill-when-`none`).  Python string
values stay `String`; `str(v.get("id"))` is the identity on the string
ids the detectors produce, so ids are embedded as `Option String`
directly.  Modification timestamps (`st_mtime` floats) are only ever
compared for order, so they are embedded as `Nat`.
-/

/-- The `details` sub-dict of a violation
(`scanner.py` heuristic detector always fills all four keys). -/
structure VDetails where
  rule : String
  evidence : String
  location : String
  recommendation : String
deriving DecidableEq

/-- A violation record (`scanner.py`: the dicts flowing through
`_heuristic_violations`, `_openai_violations` and `_reconcile`). -/
structure Violation where
  id : Option String
  title : Option String
  summary : Option String
  sourceId : Option String
  policyId : Option String
  severity : Option String
  details : Option VDetails
  status : Option String
  firstSeenIso : Option String
  lastSeenIso : Option String
  createdAtIso : Option String
  resolvedAtIso : Option String
  read : Option Bool
deriving DecidableEq

/-- The all-absent record (an empty Python dict). -/
def emptyViolation : Violation :=
  ⟨none, none, none, none, none, none, none, none, none, none, none, none, none⟩

/-- `v.get("status", "OPEN")` (scanner.py:604, 151, 651). -/
def getStatus (v : Violation) : String :=
  v.status.getD "OPEN"

/-- Python `x or y` on an optional string: `None` and the empty string
are falsy (scanner.py:610 `old.get("createdAtIso") or now`). -/
def pyOr (a : Option String) (dflt : String) : String :=
  match a with
  | none => dflt
  | some s => if s = "" then dflt else s

/-- Insertion-ordered association list standing for a Python dict:
assigning an existing key replaces the value in place (keeping the
key's original position), a new key is appended. -/
def insertReplace : List (String × Violation) → String → Violation →
    List (String × Violation)
  | [], k, v => [(k, v)]
  | (k', v') :: rest, k, v =>
    if k' = k then (k', v) :: rest else (k', v') :: insertReplace rest k v

/-- Dict lookup. -/
def lookupIdx : List (String × Violation) → String → Option Violation
  | [], _ => none
  | (k', v) :: rest, k => if k' = k then some v else lookupIdx rest k

/-- `vid in dict`. -/
def hasKey (idx : List (String × Violation)) (k : String) : Bool :=
  (lookupIdx idx k).isSome

/-- `{str(v.get("id")): v for v in l if v.get("id") is not None}`
(scanner.py:585-590); a Python dict comprehension builds the dict by
repeated assignment, so a duplicated id keeps its first position with
its last value. -/
def buildIndex (l : List Violation) : List (String × Violation) :=
  l.foldl (fun acc v =>
    match v.id with
    | none => acc
    | some vid => insertReplace acc vid v) []

/-- One field-update step of the loop at scanner.py:621-624:
`if d.get(k) is not None and d.get(k) != old.get(k): old[k] = d.get(k)`.
Returns the new value and whether the `changed` flag was flipped. -/
def updOpt {α : Type} [DecidableEq α] (cur new : Option α) : Option α × Bool :=
  match new with
  | none => (cur, false)
  | some x => if cur = some x then (cur, false) else (some x, true)

/-- The mutable-field overwrite loop (scanner.py:621-624) over
`["title", "summary", "sourceId", "policyId", "severity", "details"]`. -/
def updateFields (old d : Violation) : Violation × Bool :=
  let ti := updOpt old.title d.title
  let su := updOpt old.summary d.summary
  let so := updOpt old.sourceId d.sourceId
  let po := updOpt old.policyId d.policyId
  let se := updOpt old.severity d.severity
  let de := updOpt old.details d.details
  ({ old with title := ti.1, summary := su.1, sourceId := so.1,
              policyId := po.1, severity := se.1, details := de.1 },
   ti.2 || su.2 || so.2 || po.2 || se.2 || de.2)

/-- Result of reconciling one existing ledger entry: the updated entry
and whether this entry flipped `changed` / counted as reopened /
counted as resolved. -/
structure StepRes where
  entry : Violation
  changed : Bool
  reopened : Bool
  resolved : Bool
deriving DecidableEq

/-- The per-entry body of the loop at scanner.py:599-634, for an entry
whose id is `vid`. -/
def processOld (dIdx : List (String × Violation)) (now : String)
    (old : Violation) (vid : String) : StepRes :=
  let status := getStatus old
  match lookupIdx dIdx vid with
  | some d =>
    -- scanner.py:609-611: backfill firstSeen, refresh lastSeen
    let o1 := if old.firstSeenIso = none
              then { old with firstSeenIso := some (pyOr old.createdAtIso now) }
              else old
    let o2 := { o1 with lastSeenIso := some now }
    -- scanner.py:614-618: reopen a resolved entry
    let reo := if status = "RESOLVED"
               then ({ o2 with status := some "OPEN", resolvedAtIso := none }, true)
               else (o2, false)
    -- scanner.py:621-624: overwrite differing descriptive fields
    let fu := updateFields reo.1 d
    ⟨fu.1, reo.2 || fu.2, reo.2, false⟩
  | none =>
    -- scanner.py:628-633: resolve if it was open
    if status ≠ "RESOLVED"
    then ⟨{ old with status := some "RESOLVED", resolvedAtIso := some now },
          true, false, true⟩
    else ⟨old, false, false, false⟩

/-- Accumulated outcome of the first reconcile pass. -/
structure Pass1 where
  updated : List Violation
  changed : Bool
  reopened : Nat
  resolved : Nat
deriving DecidableEq

/-- First pass of `_reconcile` (scanner.py:598-634): walk the existing
ledger in order; entries with a `None` id are skipped (scanner.py:601-602). -/
def pass1 (dIdx : List (String × Violation)) (now : String) :
    List Violation → Pass1
  | [] => ⟨[], false, 0, 0⟩
  | old :: rest =>
    match old.id with
    | none => pass1 dIdx now rest
    | some vid =>
      let r := processOld dIdx now old vid
      let p := pass1 dIdx now rest
      ⟨r.entry :: p.updated, r.changed || p.changed,
       (if r.reopened then 1 else 0) + p.reopened,
       (if r.resolved then 1 else 0) + p.resolved⟩

/-- Synthesis of a newly detected entry (scanner.py:640-646). -/
def mkNew (d : Violation) (now : String) : Violation :=
  { d with
    firstSeenIso := some (d.firstSeenIso.getD now),
    lastSeenIso := some (d.lastSeenIso.getD now),
    createdAtIso := some (d.createdAtIso.getD now),
    read := some (d.read.getD false),
    status := some "OPEN",
    resolvedAtIso := none }

/-- Second pass of `_reconcile` (scanner.py:637-649): walk
`detected_by_id.items()` in insertion order, prepending
(`updated.insert(0, item)`) each genuinely new entry; returns the new
ledger and the `new` counter. -/
def pass2 (exIdx : List (String × Violation)) (now : String) :
    List (String × Violation) → List Violation → List Violation × Nat
  | [], acc => (acc, 0)
  | (vid, d) :: rest, acc =>
    if hasKey exIdx vid then pass2 exIdx now rest acc
    else
      let r := pass2 exIdx now rest (mkNew d now :: acc)
      (r.1, r.2 + 1)

/-- The diff summary returned by `_reconcile` (scanner.py:654-661). -/
structure Diff where
  changed : Bool
  new : Nat
  reopened : Nat
  resolved : Nat
  open_count : Nat
  resolved_count : Nat
deriving DecidableEq

/-- `Scanner._reconcile` (scanner.py:574-661), with the wall-clock
reading `now = now_iso()` made an explicit argument. -/
def reconcile (existing detected : List Violation) (now : String) :
    List Violation × Diff :=
  let existingById := buildIndex existing
  let detectedById := buildIndex detected
  let p := pass1 detectedById now existing
  let np := pass2 existingById now detectedById p.updated
  let changed := p.changed || (np.2 != 0)
  let openCount := (np.1.filter (fun v => getStatus v = "OPEN")).length
  (np.1,
   ⟨changed, np.2, p.reopened, p.resolved, openCount, np.1.length - openCount⟩)

/-!
## The heuristic detector (`_heuristic_violations`, scanner.py:244-344)

Python `re` patterns are embedded as backtracking matchers.  A matcher
consumes a prefix of the text and returns the possible remaining
suffixes in the order Python's engine would try them (greedy
quantifiers longest-first, alternation left-to-right).  All repetition
operators in the source's patterns apply to single-character atoms, so
repetition is implemented by `takeWhile`-based split enumeration.
Character classes are compiled by a parser mirroring `sre_parse`: an
unescaped `-` between two items denotes a range, and a reversed range
is a compile-time `re.error` ("bad character range") — raised by
`re.search` at call time.
-/

instance {ε α : Type} [DecidableEq ε] [DecidableEq α] : DecidableEq (Except ε α) :=
  fun x y =>
  match x, y with
  | .ok a, .ok b =>
    if h : a = b then isTrue (by rw [h]) else isFalse (by simp [h])
  | .error a, .error b =>
    if h : a = b then isTrue (by rw [h]) else isFalse (by simp [h])
  | .ok _, .error _ => isFalse (by simp)
  | .error _, .ok _ => isFalse (by simp)

/-- A compiled regex fragment: text ↦ possible remaining suffixes,
in backtracking priority order. -/
abbrev Matcher := List Char → List (List Char)

/-- Single character satisfying a predicate. -/
def mChr (p : Char → Bool) : Matcher := fun s =>
  match s with
  | [] => []
  | c :: cs => if p c then [cs] else []

/-- Case-sensitive literal. -/
def mLit : List Char → Matcher
  | [], s => [s]
  | _ :: _, [] => []
  | c :: cs, x :: xs => if x = c then mLit cs xs else []

/-- Case-insensitive literal (`re.I`). -/
def mLitCI : List Char → Matcher
  | [], s => [s]
  | _ :: _, [] => []
  | c :: cs, x :: xs => if x.toLower = c.toLower then mLitCI cs xs else []

/-- Concatenation. -/
def mSeq (a b : Matcher) : Matcher := fun s => (a s).flatMap b

/-- Alternation `x|y` (left branch tried first). -/
def mAlt (a b : Matcher) : Matcher := fun s => a s ++ b s

/-- Greedy `x?` (with-`x` tried first). -/
def mOpt (a : Matcher) : Matcher := fun s => a s ++ [s]

/-- Greedy `c+` on a single-character atom: longest first. -/
def mPlusGreedy (p : Char → Bool) : Matcher := fun s =>
  let n := (s.takeWhile p).length
  (List.range n).map (fun i => s.drop (n - i))

/-- Greedy `c*` on a single-character atom. -/
def mStarGreedy (p : Char → Bool) : Matcher := fun s =>
  let n := (s.takeWhile p).length
  (List.range (n + 1)).map (fun i => s.drop (n - i))

/-- Lazy `c+?` on a single-character atom: shortest first. -/
def mPlusLazy (p : Char → Bool) : Matcher := fun s =>
  let n := (s.takeWhile p).length
  (List.range n).map (fun i => s.drop (i + 1))

/-- Greedy `c{k,}` on a single-character atom. -/
def mRepGE (p : Char → Bool) (k : Nat) : Matcher := fun s =>
  let n := (s.takeWhile p).length
  if n < k then []
  else (List.range (n - k + 1)).map (fun i => s.drop (n - i))

/-- `re.search`: leftmost position admitting a match; returns
`group(0)` (the consumed prefix of the first alternative tried). -/
def searchM (m : Matcher) : List Char → Option (List Char)
  | [] => if (m []).isEmpty then none else some []
  | c :: rest =>
    match m (c :: rest) with
    | r :: _ => some ((c :: rest).take ((c :: rest).length - r.length))
    | [] => searchM m rest

/-- A token of a character-class body: a plain character or an
escaped one (`\\` inside a raw string is the escape for `\`). -/
inductive ClassTok
  | ch (c : Char)
  | esc (c : Char)
deriving DecidableEq

/-- A parsed class item. -/
inductive ClassItem
  | lit (c : Char)
  | range (lo hi : Char)
deriving DecidableEq

/-- The character an (identity-)escaped or plain token stands for. -/
def tokChar : ClassTok → Char
  | .ch c => c
  | .esc c => c

/-- `sre_parse`-style class-body parsing: an unescaped `-` that is
neither first nor last makes a range of its two neighbours, and a
reversed range is a compile-time error; a trailing `-` is a literal. -/
def parseClassItems : List ClassTok → Except String (List ClassItem)
  | [] => .ok []
  | t :: .ch '-' :: t2 :: rest =>
    if tokChar t2 < tokChar t then .error "bad character range"
    else do
      let items ← parseClassItems rest
      .ok (.range (tokChar t) (tokChar t2) :: items)
  | t :: .ch '-' :: [] => .ok [.lit (tokChar t), .lit '-']
  | t :: rest => do
    let items ← parseClassItems rest
    .ok (.lit (tokChar t) :: items)

/-- Membership in a parsed class. -/
def classPred (items : List ClassItem) (c : Char) : Bool :=
  items.any fun it =>
    match it with
    | .lit c' => decide (c = c')
    | .range lo hi => decide (lo ≤ c ∧ c ≤ hi)

/-- Class membership under `re.I`. -/
def classPredCI (items : List ClassItem) (c : Char) : Bool :=
  classPred items c || classPred items c.toLower || classPred items c.toUpper

/-- `.` (any character except newline). -/
def anyChar (c : Char) : Bool := decide (c ≠ '\n')

/-- Python `\s` class: `[ \t\n\r\f\v]`. -/
def pySpace (c : Char) : Bool :=
  [' ', '\t', '\n', '\r', '\x0b', '\x0c'].contains c

/-- `s+` under `re.I` (the doubled-backslash heuristic patterns turn
`\\s+` into a literal backslash followed by one-or-more `s`). -/
def sPlusCI : Matcher := mPlusGreedy (fun c => decide (c.toLower = 's'))

/-- `s*` under `re.I`. -/
def sStarCI : Matcher := mStarGreedy (fun c => decide (c.toLower = 's'))

/-- Class body of `[A-Z0-9._%+-]` (scanner.py:251). -/
def emailLocalToks : List ClassTok :=
  [.ch 'A', .ch '-', .ch 'Z', .ch '0', .ch '-', .ch '9',
   .ch '.', .ch '_', .ch '%', .ch '+', .ch '-']

/-- Class body of `[A-Z0-9.-]` (scanner.py:251). -/
def emailDomToks : List ClassTok :=
  [.ch 'A', .ch '-', .ch 'Z', .ch '0', .ch '-', .ch '9', .ch '.', .ch '-']

/-- Class body of `[A-Z]` (scanner.py:251). -/
def upperToks : List ClassTok := [.ch 'A', .ch '-', .ch 'Z']

/-- Class body of `[A-Za-z0-9_\\-]` (scanner.py:254): the `\\` is an
escaped backslash, leaving the final `-` before `]` a literal. -/
def tokenClsToks : List ClassTok :=
  [.ch 'A', .ch '-', .ch 'Z', .ch 'a', .ch '-', .ch 'z',
   .ch '0', .ch '-', .ch '9', .ch '_', .esc '\\', .ch '-']

/-- Class body of `[\\d \\-()]` (scanner.py:252): escaped backslash,
`d`, space, escaped backslash, then an unescaped `-` followed by `(`,
i.e. an attempted range from `\` (92) down to `(` (40). -/
def phoneClsToks : List ClassTok :=
  [.esc '\\', .ch 'd', .ch ' ', .esc '\\', .ch '-', .ch '(', .ch ')']

/-- Compilation of `[A-Z0-9._%+-]+@[A-Z0-9.-]+\\.[A-Z]{2,}` with
`re.I` (scanner.py:251).  In the raw string, `\\.` is an escaped
backslash followed by `.`: a literal `\` atom, then any-character. -/
def emailCompiled : Except String Matcher := do
  let loc ← parseClassItems emailLocalToks
  let dom ← parseClassItems emailDomToks
  let up ← parseClassItems upperToks
  .ok (mSeq (mPlusGreedy (classPredCI loc))
       (mSeq (mLit ['@'])
        (mSeq (mPlusGreedy (classPredCI dom))
         (mSeq (mLit ['\\'])
          (mSeq (mChr anyChar) (mRepGE (classPredCI up) 2))))))

/-- Compilation of `\\+?\\d[\\d \\-()]{7,}\\d` (scanner.py:252):
`\\+?` is a lazy one-or-more of literal `\`, `\\d` a literal `\`
followed by literal `d`; the class body is rejected by `sre_parse`
("bad character range"), so `re.search` raises on every call. -/
def phoneCompiled : Except String Matcher := do
  let cls ← parseClassItems phoneClsToks
  .ok (mSeq (mPlusLazy (fun c => decide (c = '\\')))
       (mSeq (mLit ['\\']) (mSeq (mLit ['d'])
        (mSeq (mRepGE (classPred cls) 7)
         (mSeq (mLit ['\\']) (mLit ['d']))))))

/-- Compilation of `sk_live_[A-Za-z0-9_\\-]{10,}` (scanner.py:254). -/
def tokenCompiled : Except String Matcher := do
  let cls ← parseClassItems tokenClsToks
  .ok (mSeq (mLit "sk_live_".data) (mRepGE (classPred cls) 10))

/-- The heuristic retention pattern (scanner.py:255-259), `re.I`.  Its
raw string doubles every backslash, so each `\\s` is a literal `\`
atom followed by a (quantified) literal `s` — a match requires an
actual backslash character in the document. -/
def heurRetentionM : Matcher :=
  mAlt (mSeq (mLitCI "retain".data)
        (mSeq (mOpt (mLitCI "ing".data))
         (mSeq (mLit ['\\']) (mSeq sPlusCI (mLitCI "forever".data)))))
  (mAlt (mSeq (mLitCI "retain".data)
         (mSeq (mOpt (mLitCI "ing".data))
          (mSeq (mLit ['\\']) (mSeq sPlusCI (mLitCI "indefinitely".data)))))
  (mAlt (mSeq (mLitCI "keep".data)
         (mSeq (mLit ['\\']) (mSeq sPlusCI (mLitCI "forever".data))))
  (mAlt (mSeq (mLitCI "stay".data)
         (mSeq (mLit ['\\']) (mSeq sPlusCI (mLitCI "forever".data))))
  (mAlt (mSeq (mLitCI "cannot".data)
         (mSeq (mLit ['\\']) (mSeq sPlusCI (mLitCI "delete".data))))
  (mAlt (mSeq (mLitCI "can".data)
         (mSeq (mLit ['\\']) (mSeq sStarCI
          (mSeq (mLitCI "NOT".data)
           (mSeq (mLit ['\\']) (mSeq sPlusCI
            (mSeq (mStarGreedy anyChar) (mLitCI "delete".data))))))))
        (mSeq (mLitCI "no".data)
         (mSeq (mLit ['\\']) (mSeq sPlusCI
          (mSeq (mLitCI "chance".data)
           (mSeq (mLit ['\\']) (mSeq sPlusCI
            (mSeq (mLitCI "to".data)
             (mSeq (mLit ['\\']) (mSeq sPlusCI
              (mLitCI "delete".data)))))))))))))))

/-- The module-level `RETENTION_REGEX` (scanner.py:22), `re.I`: the
same seven alternatives with proper single-backslash `\s` whitespace
classes.  Used at scanner.py:158 and scanner.py:419. -/
def moduleRetentionM : Matcher :=
  mAlt (mSeq (mLitCI "retain".data)
        (mSeq (mOpt (mLitCI "ing".data))
         (mSeq (mPlusGreedy pySpace) (mLitCI "forever".data))))
  (mAlt (mSeq (mLitCI "retain".data)
         (mSeq (mOpt (mLitCI "ing".data))
          (mSeq (mPlusGreedy pySpace) (mLitCI "indefinitely".data))))
  (mAlt (mSeq (mLitCI "keep".data)
         (mSeq (mPlusGreedy pySpace) (mLitCI "forever".data)))
  (mAlt (mSeq (mLitCI "stay".data)
         (mSeq (mPlusGreedy pySpace) (mLitCI "forever".data)))
  (mAlt (mSeq (mLitCI "cannot".data)
         (mSeq (mPlusGreedy pySpace) (mLitCI "delete".data)))
  (mAlt (mSeq (mLitCI "can".data)
         (mSeq (mStarGreedy pySpace)
          (mSeq (mLitCI "NOT".data)
           (mSeq (mPlusGreedy pySpace)
            (mSeq (mStarGreedy anyChar) (mLitCI "delete".data))))))
        (mSeq (mLitCI "no".data)
         (mSeq (mPlusGreedy pySpace)
          (mSeq (mLitCI "chance".data)
           (mSeq (mPlusGreedy pySpace)
            (mSeq (mLitCI "to".data)
             (mSeq (mPlusGreedy pySpace) (mLitCI "delete".data))))))))))))

/-- `re.search` of the email pattern (scanner.py:251). -/
def emailSearch (doc : String) : Except String (Option (List Char)) := do
  let m ← emailCompiled
  .ok (searchM m doc.data)

/-- `re.search` of the phone pattern (scanner.py:252): always raises. -/
def phoneSearch (doc : String) : Except String (Option (List Char)) := do
  let m ← phoneCompiled
  .ok (searchM m doc.data)

/-- `re.search` of the token pattern (scanner.py:254). -/
def tokenSearch (doc : String) : Except String (Option (List Char)) := do
  let m ← tokenCompiled
  .ok (searchM m doc.data)

/-- `re.search` of the heuristic retention pattern (scanner.py:255-259). -/
def heurRetentionSearch (doc : String) : Except String (Option (List Char)) :=
  .ok (searchM heurRetentionM doc.data)

/-- `re.search(RETENTION_REGEX, doc_text, re.I)` (scanner.py:158). -/
def moduleRetentionSearch (doc : String) : Option (List Char) :=
  searchM moduleRetentionM doc.data

/-- `"anyone with the link" in doc_text.lower()` (scanner.py:253). -/
def containsSub (needle : List Char) : List Char → Bool
  | [] => needle.isEmpty
  | c :: rest => needle.isPrefixOf (c :: rest) || containsSub needle rest

/-- A policy record (scanner.py:96-105, 204-216). -/
structure Policy where
  id : String
  name : String
  description : String
  version : String
  updatedAtIso : String
  text : String
deriving DecidableEq

/-- `pick` (scanner.py:270-271): preferred policy id if present in the
current policy set, else the fallback (default `"gdpr"`). -/
def pick (policies : List Policy) (pid : String) (fallback : String) : String :=
  if policies.any (fun p => p.id = pid) then pid else fallback

/-- `Scanner._heuristic_violations` (scanner.py:244-344), with Python
exceptions as `Except`: the five signal searches run in source order,
then each matching rule appends its fixed-identity candidate. -/
def heuristicViolationsE (docText : String) (policies : List Policy)
    (existingOpen : List Violation) : Except String (List Violation) := do
  let email ← emailSearch docText
  let phone ← phoneSearch docText
  let anyoneLink := containsSub "anyone with the link".data
      (docText.data.map Char.toLower)
  let token ← tokenSearch docText
  let retention ← heurRetentionSearch docText
  -- scanner.py:274 computes existing_ids, but its only use
  -- (scanner.py:279) yields "b-001" in either branch.
  let _existingIds := existingOpen.filterMap (fun v => v.id)
  let out1 : List Violation :=
    if email.isSome || phone.isSome then
      [{ emptyViolation with
          id := some "b-001",
          title := some "Possible personal data in document",
          summary := some "Detected patterns that look like email/phone.",
          sourceId := some "google-drive",
          policyId := some (pick policies "gdpr" "gdpr"),
          severity := some "medium",
          details := some
            ⟨"Avoid including personal data in broadly accessible documents.",
             "Email: " ++ (match email with
               | some m => m.asString
               | none => "n/a") ++ "; Phone: " ++ (match phone with
               | some m => m.asString
               | none => "n/a"),
             "Local doc (pretend Drive)",
             "Redact personal data and restrict access."⟩ }]
    else []
  let out2 : List Violation :=
    if anyoneLink then
      [{ emptyViolation with
          id := some "b-002",
          title := some "Document appears to be shared publicly",
          summary := some "Found text indicating “Anyone with the link”.",
          sourceId := some "google-drive",
          policyId := some (pick policies "access-control" "gdpr"),
          severity := some "high",
          details := some
            ⟨"Access control: do not share personal data publicly.",
             "Matched phrase: “Anyone with the link”.",
             "Local doc (pretend Drive)",
             "Restrict sharing and move content to private folder."⟩ }]
    else []
  let out3 : List Violation :=
    if token.isSome then
      [{ emptyViolation with
          id := some "b-003",
          title := some "Secret/token-like string found",
          summary := some "Detected a token-like pattern in the document.",
          sourceId := some "google-drive",
          policyId := some (pick policies "secrets-handling" "gdpr"),
          severity := some "high",
          details := some
            ⟨"Secrets handling: never store tokens in shared docs.",
             "Matched pattern: " ++ (match token with
               | some m => (m.take 12).asString
               | none => "") ++ "…",
             "Local doc (pretend Drive)",
             "Rotate token and remove from document."⟩ }]
    else []
  let out4 : List Violation :=
    if retention.isSome then
      [{ emptyViolation with
          id := some "b-004",
          title := some "Indefinite retention / no deletion mentioned",
          summary := some ("Document suggests users cannot delete their data "
            ++ "or data is retained forever."),
          sourceId := some "google-drive",
          policyId := some (pick policies "data-retention" "gdpr"),
          severity := some "high",
          details := some
            ⟨("Data retention: users must be able to request deletion; "
              ++ "indefinite retention is not allowed by default."),
             "Matched phrase: “" ++ (match retention with
               | some m => m.asString
               | none => "") ++ "”",
             "Local doc (pretend Drive)",
             ("Add deletion process and set retention periods; "
              ++ "remove 'forever' retention statements.")⟩ }]
    else []
  .ok (out1 ++ out2 ++ out3 ++ out4)

/-!
## The scan orchestrator (`Scanner.scan_once`, scanner.py:126-202)

The filesystem and clock are embedded as an explicit environment: the
monitored document's existence/mtime/content, the sorted `*.md`
listing of the policies directory, the value `now_iso()` returns
during the cycle, and the semantic-detector configuration
(`OPENAI_API_KEY` presence and the outcome `_openai_violations` would
produce, exceptions as `Except.error`; its own JSON-parse-failure
path returns an empty list, i.e. `.ok []`).  `scan_once` returns the
new state plus which exit it took; a Python exception escaping the
call is the `raised` outcome, with mutations made before the raise
kept (Python does not roll back).
-/

/-- One entry of `state.sources` (scanner.py:63-71). -/
structure SourceRec where
  id : String
  name : String
  description : String
  path : String
deriving DecidableEq

/-- `ScanState` (scanner.py:41-49). -/
structure ScanState where
  sources : List SourceRec
  policies : List Policy
  violations : List Violation
  last_scan_iso : Option String
  last_scan_error : Option String
  doc_mtime : Option Nat
  policies_mtime : Option Nat
deriving DecidableEq

/-- The dataclass defaults (scanner.py:41-49). -/
def initialScanState : ScanState := ⟨[], [], [], none, none, none, none⟩

/-- One policy file on disk: stem of the `*.md` filename, its
modification signal, its content. -/
structure PolicyFile where
  stem : String
  mtime : Nat
  text : String
deriving DecidableEq

/-- The world a scan cycle observes. -/
structure Env where
  policiesDirExists : Bool
  policyFiles : List PolicyFile
  docExists : Bool
  docMtime : Nat
  docText : String
  nowIso : String
  apiKeyPresent : Bool
  llmResult : Except String (List Violation)
deriving DecidableEq

/-- `Scanner._policies_max_mtime` (scanner.py:73-82). -/
def policiesMaxMtime (env : Env) : Option Nat :=
  if !env.policiesDirExists then none
  else
    match env.policyFiles.map (fun p => p.mtime) with
    | [] => none
    | m :: ms => some (ms.foldl max m)

/-- Python `str.replace(old, new)` on character lists: replace
non-overlapping occurrences left to right.  The fuel argument (called
with the text's length) only bounds the recursion; each step consumes
at least one character, so it is never exhausted.  (Python's special
case for an empty `old` is irrelevant here: the source only replaces
`"_"`.) -/
def pyReplaceGo (old new : List Char) : Nat → List Char → List Char
  | _, [] => []
  | 0, s => s
  | fuel + 1, c :: rest =>
    if old.isPrefixOf (c :: rest) && !old.isEmpty
    then new ++ pyReplaceGo old new fuel ((c :: rest).drop old.length)
    else c :: pyReplaceGo old new fuel rest

/-- Python `str.replace(old, new)` (scanner.py:98-99). -/
def pyReplace (s old new : String) : String :=
  (pyReplaceGo old.data new.data s.data.length s.data).asString

/-- Python `str.title()` restricted to ASCII letters (scanner.py:99). -/
def pyTitleGo : List Char → Bool → List Char
  | [], _ => []
  | c :: cs, prevCased =>
    (if c.isAlpha && !prevCased then c.toUpper
     else if c.isAlpha && prevCased then c.toLower
     else c) :: pyTitleGo cs c.isAlpha

/-- Python `str.title()`. -/
def pyTitle (s : String) : String := (pyTitleGo s.data false).asString

/-- The reload branch of `_load_policies_from_disk`
(scanner.py:93-108): rebuild the policy list from the sorted `*.md`
listing, record the latest modification signal, report a change. -/
def reloadPolicies (env : Env) (s : ScanState) (latest : Option Nat) :
    ScanState × Bool :=
  let policies :=
    if env.policiesDirExists then
      env.policyFiles.map (fun p =>
        { id := pyReplace p.stem "_" "-",
          name := pyTitle (pyReplace p.stem "_" " "),
          description := "Loaded from disk: " ++ p.stem ++ ".md",
          version := "1.0",
          updatedAtIso := env.nowIso,
          text := p.text })
    else []
  ({ s with policies := policies, policies_mtime := latest }, true)

/-- `Scanner._load_policies_from_disk` (scanner.py:84-108): skip (and
report no change) only when not forced and both the stored and the
current signal exist with `latest <= stored`. -/
def loadPoliciesFromDisk (env : Env) (force : Bool) (s : ScanState) :
    ScanState × Bool :=
  let latest := policiesMaxMtime env
  match force, s.policies_mtime, latest with
  | false, some m, some l =>
    if l ≤ m then (s, false) else reloadPolicies env s latest
  | _, _, _ => reloadPolicies env s latest

/-- `Scanner._analyze` (scanner.py:224-242): no credential → heuristic
detector; semantic result used as-is on success; on a semantic
exception, fall back to the heuristic detector (inside the `except`
handler, so anything the heuristic raises propagates). -/
def analyzeE (apiKeyPresent : Bool) (llmResult : Except String (List Violation))
    (docText : String) (policies : List Policy)
    (existingOpen : List Violation) : Except String (List Violation) :=
  if !apiKeyPresent then heuristicViolationsE docText policies existingOpen
  else
    match llmResult with
    | .ok l => .ok l
    | .error _ => heuristicViolationsE docText policies existingOpen

/-- Which exit `scan_once` took. -/
inductive ScanOutcome
  | committed
  | skipped
  | missingDoc
  | raised (msg : String)
deriving DecidableEq

/-- `str(GOOGLE_DRIVE_DOC)` (scanner.py:16), repo-relative. -/
def googleDriveDocPath : String := "data/sources/google_drive/user_journey.txt"

/-- `Scanner.scan_once` (scanner.py:126-202).  The policy reload is
invoked with `force=False` regardless of the argument
(scanner.py:131); a missing document records an error and a timestamp
and returns (scanner.py:137-140); an unforced, change-free cycle
returns untouched (scanner.py:146-147); otherwise the document signal
is stored, detection and reconciliation run, and the result is
committed with a fresh timestamp and a cleared error
(scanner.py:149-190). -/
def scanOnce (env : Env) (s : ScanState) (force : Bool) :
    ScanState × ScanOutcome :=
  let lp := loadPoliciesFromDisk env false s
  let s1 := lp.1
  let policiesChanged := lp.2
  if !env.docExists then
    ({ s1 with
        last_scan_error := some ("Missing source file: " ++ googleDriveDocPath),
        last_scan_iso := some env.nowIso }, .missingDoc)
  else
    let docChanged :=
      match s1.doc_mtime with
      | none => true
      | some m => decide (m < env.docMtime)
    if !force && !policiesChanged && !docChanged then (s1, .skipped)
    else
      let s2 := { s1 with doc_mtime := some env.docMtime }
      let existing := s2.violations
      let existingOpen := existing.filter (fun v => getStatus v = "OPEN")
      match analyzeE env.apiKeyPresent env.llmResult env.docText s2.policies
          existingOpen with
      | .error e => (s2, .raised e)
      | .ok detected =>
        let r := reconcile existing detected env.nowIso
        ({ s2 with violations := r.1, last_scan_iso := some env.nowIso,
                   last_scan_error := none }, .committed)

/-!
## Lock discipline of concurrent scan cycles

`scan_once` holds `Scanner._lock` only for the due-check/snapshot
section (scanner.py:129-151) and again for the commit
(scanner.py:187-190); `_analyze` and `_reconcile` (scanner.py:184-185)
run with the lock released.  `app.py:72-75` calls
`scan_once(force=True)` on any `POST /api/scan`, concurrently with the
background loop (scanner.py:110-124), and no other lock exists.  The
interleaving of two concurrent cycles is modelled as a transition
system: each constructor is one source-code section executed by one of
the two threads, touching the lock exactly as the source does. -/
inductive CyclePhase
  | idle
  | inCritical
  | detecting
  | reconciling
  | finished
deriving DecidableEq

/-- Phases of two concurrent `scan_once` calls plus the owner of
`Scanner._lock` (`false` = thread 1, `true` = thread 2). -/
structure SchedState where
  ph1 : CyclePhase
  ph2 : CyclePhase
  lock : Option Bool
deriving DecidableEq

/-- One interleaving step of two concurrent forced `scan_once` calls.
`enter`: acquire the lock (scanner.py:129); `snapshot`: pass the due
check (forced calls always do), snapshot state and release the lock on
leaving the `with` block (scanner.py:131-151); `toReconcile`: finish
`_analyze` and call `_reconcile` — no lock is held (scanner.py:184-185);
`commit`: re-acquire the lock, commit and release (scanner.py:187-190). -/
inductive SchedStep : SchedState → SchedState → Prop
  | enter1 (s : SchedState) (h : s.ph1 = .idle) (hl : s.lock = none) :
      SchedStep s { s with ph1 := .inCritical, lock := some false }
  | snapshot1 (s : SchedState) (h : s.ph1 = .inCritical) (hl : s.lock = some false) :
      SchedStep s { s with ph1 := .detecting, lock := none }
  | toReconcile1 (s : SchedState) (h : s.ph1 = .detecting) :
      SchedStep s { s with ph1 := .reconciling }
  | commit1 (s : SchedState) (h : s.ph1 = .reconciling) (hl : s.lock = none) :
      SchedStep s { s with ph1 := .finished }
  | enter2 (s : SchedState) (h : s.ph2 = .idle) (hl : s.lock = none) :
      SchedStep s { s with ph2 := .inCritical, lock := some true }
  | snapshot2 (s : SchedState) (h : s.ph2 = .inCritical) (hl : s.lock = some true) :
      SchedStep s { s with ph2 := .detecting, lock := none }
  | toReconcile2 (s : SchedState) (h : s.ph2 = .detecting) :
      SchedStep s { s with ph2 := .reconciling }
  | commit2 (s : SchedState) (h : s.ph2 = .reconciling) (hl : s.lock = none) :
      SchedStep s { s with ph2 := .finished }

/-- Reachability under interleaving. -/
def SchedReach : SchedState → SchedState → Prop :=
  Relation.ReflTransGen SchedStep

/-- Both cycles start idle, the lock free. -/
def schedInit : SchedState := ⟨.idle, .idle, none⟩

/-! Concrete records and environments used by witnesses and
counterexamples. -/

/-- A detected record carrying a foreign `lastSeenIso`. -/
def dForeignLast : Violation :=
  { emptyViolation with
    id := some "x",
    lastSeenIso := some "2020-01-01T00:00:00Z" }

/-- An open ledger entry with identity `x` (status defaults to OPEN). -/
def vOpenX : Violation :=
  { emptyViolation with id := some "x", title := some "Open issue" }

/-- A detected record with identity `x`. -/
def dDetX : Violation :=
  { emptyViolation with id := some "x", severity := some "high" }

/-- A resolved ledger entry with identity `a`. -/
def vResolvedA : Violation :=
  { emptyViolation with
    id := some "a",
    status := some "RESOLVED",
    resolvedAtIso := some "R0" }

/-- A detected record with identity `a`. -/
def dRecA : Violation := { emptyViolation with id := some "a" }

/-- A detected record with identity `b`. -/
def dRecB : Violation :=
  { emptyViolation with id := some "b", title := some "New finding" }

/-- An environment with no policy files at all (the policies directory
is absent), an existing empty document, and a succeeding semantic
detector. -/
def envNoPolicyFiles : Env :=
  ⟨false, [], true, 3, "", "2024-01-01T00:00:00Z", true, .ok []⟩

/-- An environment with one policy file, an existing empty document,
and a succeeding semantic detector. -/
def envOnePolicyFile : Env :=
  ⟨true, [⟨"data_retention", 5, "Retention policy text."⟩], true, 3, "",
   "2024-01-01T00:00:00Z", true, .ok []⟩

/-- An environment whose monitored document is missing. -/
def envMissingDoc : Env :=
  ⟨true, [⟨"gdpr", 5, "policy"⟩], false, 3, "",
   "2024-01-01T00:00:00Z", false, .error "timeout"⟩

/-- A document containing the phrase `"cannot delete"`. -/
def docCannotDelete : String := "Users cannot delete their accounts."

/-- A document containing the token `"sk_live_abcdef1234567890"`. -/
def docWithToken : String := "Key: sk_live_abcdef1234567890 end"

/-- Specification observable for C4: whether a reconcile call against
detection set `detected` counts ledger entry `o` as a reopen of
identity `x` — the entry is keyed `x`, currently `RESOLVED`, and `x`
is present in the detected index (scanner.py:614-617). -/
def reopenedThisCall (detected : List Violation) (x : String)
    (o : Violation) : Bool :=
  (o.id == some x) && (hasKey (buildIndex detected) x
    && (getStatus o == "RESOLVED"))

/-- What the matched branch of `processOld` guarantees of its output:
enough to make the entry a fixpoint of a second matched pass against
the same detected record. -/
structure MatchedFix (d : Violation) (t : String) (e : Violation) : Prop where
  firstSeen : e.firstSeenIso.isSome
  lastSeen : e.lastSeenIso = some t
  statusNe : getStatus e ≠ "RESOLVED"
  titleEq : d.title.isSome → e.title = d.title
  summaryEq : d.summary.isSome → e.summary = d.summary
  sourceIdEq : d.sourceId.isSome → e.sourceId = d.sourceId
  policyIdEq : d.policyId.isSome → e.policyId = d.policyId
  severityEq : d.severity.isSome → e.severity = d.severity
  detailsEq : d.details.isSome → e.details = d.details

example :
    (reconcile [] [{ emptyViolation with id := some "b-003" }] "T").2.new = 1 := by
  decide

/-! ## Association-list facts about `buildIndex` -/

theorem lookupIdx_insertReplace_self (idx : List (String × Violation))
    (k : String) (v : Violation) :
    lookupIdx (insertReplace idx k v) k = some v := by
  induction idx with
  | nil => simp [insertReplace, lookupIdx]
  | cons kv rest ih =>
    by_cases h : kv.1 = k
    · simp [insertReplace, lookupIdx, h]
    · simp [insertReplace, lookupIdx, h, ih]

theorem lookupIdx_insertReplace_ne (idx : List (String × Violation))
    (k k' : String) (v : Violation) (h : k' ≠ k) :
    lookupIdx (insertReplace idx k v) k' = lookupIdx idx k' := by
  induction idx with
  | nil => simp [insertReplace, lookupIdx, Ne.symm h]
  | cons kv rest ih =>
    by_cases hk : kv.1 = k
    · have hne : ¬ k = k' := Ne.symm h
      simp [insertReplace, lookupIdx, hk, hne]
    · by_cases hk' : kv.1 = k'
      · simp [insertReplace, lookupIdx, hk, hk', h]
      · simp [insertReplace, lookupIdx, hk, hk', ih]

/-- Keys present after a `buildIndex` fold step. -/
theorem lookupIdx_foldl_isSome (l : List Violation)
    (acc : List (String × Violation)) (k : String) :
    (lookupIdx (l.foldl (fun acc v =>
        match v.id with
        | none => acc
        | some vid => insertReplace acc vid v) acc) k).isSome
      ↔ (lookupIdx acc k).isSome ∨ ∃ v ∈ l, v.id = some k := by
  induction l generalizing acc with
  | nil => simp
  | cons o rest ih =>
    cases ho : o.id with
    | none =>
      simp only [List.foldl_cons, ho, ih]
      constructor
      · rintro (h | h)
        · exact Or.inl h
        · exact Or.inr ⟨h.choose, List.mem_cons_of_mem _ h.choose_spec.1, h.choose_spec.2⟩
      · rintro (h | ⟨v, hv, hid⟩)
        · exact Or.inl h
        · rcases List.mem_cons.mp hv with rfl | hv'
          · exact absurd hid (by simp [ho])
          · exact Or.inr ⟨v, hv', hid⟩
    | some vid =>
      simp only [List.foldl_cons, ho, ih]
      by_cases hk : vid = k
      · subst hk
        rw [lookupIdx_insertReplace_self]
        constructor
        · intro _
          exact Or.inr ⟨o, List.mem_cons_self _ _, ho⟩
        · intro _
          simp
      · rw [lookupIdx_insertReplace_ne _ _ _ _ (Ne.symm hk)]
        constructor
        · rintro (h | ⟨v, hv, hid⟩)
          · exact Or.inl h
          · exact Or.inr ⟨v, List.mem_cons_of_mem _ hv, hid⟩
        · rintro (h | ⟨v, hv, hid⟩)
          · exact Or.inl h
          · rcases List.mem_cons.mp hv with rfl | hv'
            · exact absurd (ho.symm.trans hid) (by simp [hk])
            · exact Or.inr ⟨v, hv', hid⟩

theorem hasKey_buildIndex (l : List Violation) (k : String) :
    hasKey (buildIndex l) k = true ↔ ∃ v ∈ l, v.id = some k := by
  have := lookupIdx_foldl_isSome l [] k
  simpa [hasKey, buildIndex, lookupIdx] using this

theorem lookupIdx_mem (idx : List (String × Violation)) (k : String)
    (v : Violation) (h : lookupIdx idx k = some v) : (k, v) ∈ idx := by
  induction idx with
  | nil => simp [lookupIdx] at h
  | cons kv rest ih =>
    by_cases hk : kv.1 = k
    · simp only [lookupIdx, hk, if_pos] at h
      cases h
      have hkv : kv = (k, kv.2) := by
        rw [← hk]
      rw [hkv] at *
      exact List.mem_cons_self _ _
    · simp only [lookupIdx, hk, reduceIte] at h
      exact List.mem_cons_of_mem _ (ih h)

theorem mem_lookupIdx_isSome (idx : List (String × Violation)) (k : String)
    (v : Violation) (h : (k, v) ∈ idx) : (lookupIdx idx k).isSome := by
  induction idx with
  | nil => simp at h
  | cons kv rest ih =>
    rcases List.mem_cons.mp h with rfl | h'
    · simp [lookupIdx]
    · by_cases hk : kv.1 = k
      · simp [lookupIdx, hk]
      · simp only [lookupIdx, hk, reduceIte]
        exact ih h'

/-- Every pair stored by `insertReplace` keeps or introduces key `k`. -/
theorem mem_insertReplace (idx : List (String × Violation)) (k : String)
    (v : Violation) (kv : String × Violation) (h : kv ∈ insertReplace idx k v) :
    kv = (k, v) ∨ kv ∈ idx := by
  induction idx with
  | nil => simpa [insertReplace] using h
  | cons kv' rest ih =>
    by_cases hk : kv'.1 = k
    · simp only [insertReplace, hk, if_pos] at h
      rcases List.mem_cons.mp h with h0 | h'
      · left
        rw [h0]
      · right; exact List.mem_cons_of_mem _ h'
    · simp only [insertReplace, hk, reduceIte] at h
      rcases List.mem_cons.mp h with h0 | h'
      · right
        rw [h0]
        exact List.mem_cons_self _ _
      · rcases ih h' with h'' | h''
        · exact Or.inl h''
        · exact Or.inr (List.mem_cons_of_mem _ h'')

/-- Invariant of the `buildIndex` fold: every stored pair is either
inherited from the accumulator or is a member of the list keyed by its
own id. -/
theorem mem_foldl_buildStep (l : List Violation) :
    ∀ acc : List (String × Violation), ∀ p ∈ l.foldl (fun acc v =>
        match v.id with
        | none => acc
        | some vid => insertReplace acc vid v) acc,
      p ∈ acc ∨ (p.2 ∈ l ∧ p.2.id = some p.1) := by
  induction l with
  | nil => intro acc p hp; exact Or.inl hp
  | cons o rest ih =>
    intro acc p hp
    simp only [List.foldl_cons] at hp
    cases ho : o.id with
    | none =>
      rw [ho] at hp
      rcases ih acc p hp with h | h
      · exact Or.inl h
      · exact Or.inr ⟨List.mem_cons_of_mem _ h.1, h.2⟩
    | some vid =>
      rw [ho] at hp
      rcases ih (insertReplace acc vid o) p hp with h | h
      · rcases mem_insertReplace acc vid o p h with rfl | h'
        · exact Or.inr ⟨List.mem_cons_self _ _, ho⟩
        · exact Or.inl h'
      · exact Or.inr ⟨List.mem_cons_of_mem _ h.1, h.2⟩

/-- Pairs in `buildIndex l` pair a member of `l` with its own id. -/
theorem mem_buildIndex (l : List Violation) (kv : String × Violation)
    (h : kv ∈ buildIndex l) : kv.2 ∈ l ∧ kv.2.id = some kv.1 := by
  rcases mem_foldl_buildStep l [] kv h with h' | h'
  · simp at h'
  · exact h'

theorem keys_insertReplace_sub (idx : List (String × Violation)) (k : String)
    (v : Violation) :
    ∀ k' ∈ (insertReplace idx k v).map Prod.fst,
      k' ∈ idx.map Prod.fst ∨ k' = k := by
  induction idx with
  | nil => simp [insertReplace]
  | cons kv rest ih =>
    intro k' hk'
    by_cases h : kv.1 = k
    · simp only [insertReplace, h, if_pos, List.map_cons, List.mem_cons] at hk'
      rcases hk' with h0 | hk'
      · exact Or.inr h0
      · exact Or.inl (by rw [List.map_cons]; exact List.mem_cons_of_mem _ hk')
    · simp only [insertReplace, h, reduceIte, List.map_cons, List.mem_cons] at hk'
      rcases hk' with h0 | hk'
      · exact Or.inl (by rw [List.map_cons, h0]; exact List.mem_cons_self _ _)
      · rcases ih k' hk' with h' | h'
        · exact Or.inl (by rw [List.map_cons]; exact List.mem_cons_of_mem _ h')
        · exact Or.inr h'

theorem nodupKeys_insertReplace (idx : List (String × Violation)) (k : String)
    (v : Violation) (h : (idx.map Prod.fst).Nodup) :
    ((insertReplace idx k v).map Prod.fst).Nodup := by
  induction idx with
  | nil => simp [insertReplace]
  | cons kv rest ih =>
    simp only [List.map_cons, List.nodup_cons] at h
    by_cases hk : kv.1 = k
    · simp only [insertReplace, hk, if_pos, List.map_cons, List.nodup_cons]
      exact ⟨hk ▸ h.1, h.2⟩
    · simp only [insertReplace, hk, reduceIte, List.map_cons, List.nodup_cons]
      refine ⟨fun hc => ?_, ih h.2⟩
      rcases keys_insertReplace_sub rest k v _ hc with h' | h'
      · exact h.1 h'
      · exact hk h'

theorem buildIndex_nodupKeys (l : List Violation) :
    ((buildIndex l).map Prod.fst).Nodup := by
  suffices h : ∀ acc : List (String × Violation), (acc.map Prod.fst).Nodup →
      ((l.foldl (fun acc v =>
        match v.id with
        | none => acc
        | some vid => insertReplace acc vid v) acc).map Prod.fst).Nodup by
    exact h [] (by simp)
  induction l with
  | nil => intro acc hacc; exact hacc
  | cons o rest ih =>
    intro acc hacc
    simp only [List.foldl_cons]
    cases ho : o.id with
    | none => exact ih acc hacc
    | some vid => exact ih _ (nodupKeys_insertReplace acc vid o hacc)

/-- With distinct keys, membership determines the lookup result. -/
theorem lookupIdx_of_mem_nodup (idx : List (String × Violation))
    (h : (idx.map Prod.fst).Nodup) (k : String) (v : Violation)
    (hm : (k, v) ∈ idx) : lookupIdx idx k = some v := by
  induction idx with
  | nil => simp at hm
  | cons kv rest ih =>
    simp only [List.map_cons, List.nodup_cons] at h
    rcases List.mem_cons.mp hm with h0 | hm'
    · rw [← h0]
      simp [lookupIdx]
    · by_cases hk : kv.1 = k
      · exfalso
        apply h.1
        rw [hk]
        exact List.mem_map.mpr ⟨(k, v), hm', rfl⟩
      · simp only [lookupIdx, hk, reduceIte]
        exact ih h.2 hm'

example :
    ((reconcile [{ emptyViolation with id := some "x" }] [] "T").1.map getStatus)
      = ["RESOLVED"] := by
  decide

/-! ## Shape lemmas for the reconcile passes -/

theorem processOld_id (dIdx : List (String × Violation)) (t : String)
    (o : Violation) (vid : String) :
    (processOld dIdx t o vid).entry.id = o.id := by
  unfold processOld
  cases lookupIdx dIdx vid <;> dsimp only <;> split_ifs <;> rfl

theorem pass1_updated (dIdx : List (String × Violation)) (t : String)
    (l : List Violation) :
    (pass1 dIdx t l).updated
      = l.filterMap (fun o => o.id.map (fun vid => (processOld dIdx t o vid).entry)) := by
  induction l with
  | nil => rfl
  | cons o rest ih =>
    cases ho : o.id with
    | none => simp [pass1, ho, ih]
    | some vid => simp [pass1, ho, ih]

theorem pass1_ids (dIdx : List (String × Violation)) (t : String)
    (l : List Violation) :
    (pass1 dIdx t l).updated.map (fun v => v.id)
      = (l.filter (fun v => v.id.isSome)).map (fun v => v.id) := by
  induction l with
  | nil => rfl
  | cons o rest ih =>
    cases ho : o.id with
    | none => simp [pass1, ho, ih, List.filter_cons]
    | some vid => simp [pass1, ho, ih, processOld_id, List.filter_cons]

theorem pass1_fixpoint (dIdx : List (String × Violation)) (t : String)
    (l : List Violation)
    (h : ∀ e ∈ l, ∃ vid, e.id = some vid ∧
        processOld dIdx t e vid = ⟨e, false, false, false⟩) :
    pass1 dIdx t l = ⟨l, false, 0, 0⟩ := by
  induction l with
  | nil => rfl
  | cons o rest ih =>
    obtain ⟨vid, hid, hfix⟩ := h o (List.mem_cons_self _ _)
    have hrest := ih (fun e he => h e (List.mem_cons_of_mem _ he))
    simp [pass1, hid, hfix, hrest]

theorem pass2_shape (exIdx : List (String × Violation)) (t : String)
    (items : List (String × Violation)) :
    ∀ acc : List Violation, ∃ ns : List Violation,
      pass2 exIdx t items acc = (ns ++ acc, ns.length) ∧
      ∀ e ∈ ns, ∃ kd ∈ items, hasKey exIdx kd.1 = false ∧ e = mkNew kd.2 t := by
  induction items with
  | nil => intro acc; exact ⟨[], rfl, by simp⟩
  | cons kd rest ih =>
    obtain ⟨vid, d⟩ := kd
    intro acc
    by_cases hk : hasKey exIdx vid
    · obtain ⟨ns, heq, hmem⟩ := ih acc
      refine ⟨ns, ?_, ?_⟩
      · simp [pass2, hk, heq]
      · intro e he
        obtain ⟨kd', h1, h2, h3⟩ := hmem e he
        exact ⟨kd', List.mem_cons_of_mem _ h1, h2, h3⟩
    · obtain ⟨ns, heq, hmem⟩ := ih (mkNew d t :: acc)
      refine ⟨ns ++ [mkNew d t], ?_, ?_⟩
      · simp [pass2, hk, heq]
      · intro e he
        rcases List.mem_append.mp he with he' | he'
        · obtain ⟨kd', h1, h2, h3⟩ := hmem e he'
          exact ⟨kd', List.mem_cons_of_mem _ h1, h2, h3⟩
        · simp only [List.mem_singleton] at he'
          exact ⟨(vid, d), List.mem_cons_self _ _, by simpa using hk, he'⟩

theorem pass2_noop (exIdx : List (String × Violation)) (t : String)
    (items : List (String × Violation))
    (h : ∀ kd ∈ items, hasKey exIdx kd.1 = true) :
    ∀ acc, pass2 exIdx t items acc = (acc, 0) := by
  induction items with
  | nil => intro acc; rfl
  | cons kd rest ih =>
    obtain ⟨vid, d⟩ := kd
    intro acc
    have hk := h (vid, d) (List.mem_cons_self _ _)
    have hrest := ih (fun kd hkd => h kd (List.mem_cons_of_mem _ hkd)) acc
    simp only [pass2, hk, if_pos]
    exact hrest

theorem pass2_mem (exIdx : List (String × Violation)) (t : String)
    (items : List (String × Violation)) :
    ∀ acc, ∀ x ∈ acc, x ∈ (pass2 exIdx t items acc).1 := by
  induction items with
  | nil => intro acc x hx; exact hx
  | cons kd rest ih =>
    obtain ⟨vid, d⟩ := kd
    intro acc x hx
    by_cases hk : hasKey exIdx vid
    · simp only [pass2, hk, if_pos]
      exact ih acc x hx
    · simp only [pass2, hk, reduceIte]
      exact ih (mkNew d t :: acc) x (List.mem_cons_of_mem _ hx)

theorem pass2_adds (exIdx : List (String × Violation)) (t : String)
    (items : List (String × Violation)) (vid : String) (d : Violation)
    (hm : (vid, d) ∈ items) (hk : hasKey exIdx vid = false) :
    ∀ acc, mkNew d t ∈ (pass2 exIdx t items acc).1 := by
  induction items with
  | nil => simp at hm
  | cons kd rest ih =>
    obtain ⟨vid', d'⟩ := kd
    intro acc
    rcases List.mem_cons.mp hm with h0 | h'
    · injection h0 with h1 h2
      subst h1
      subst h2
      simp only [pass2, hk, reduceIte]
      exact pass2_mem exIdx t rest _ _ (List.mem_cons_self _ _)
    · by_cases hk' : hasKey exIdx vid'
      · simp only [pass2, hk', if_pos]
        exact ih h' acc
      · simp only [pass2, hk', reduceIte]
        exact ih h' (mkNew d' t :: acc)

/-! ## Fixpoint lemmas: entries produced by a reconcile pass are left
untouched by a second pass against the same detection index -/

theorem mkNew_id (d : Violation) (t : String) : (mkNew d t).id = d.id := rfl

theorem upd_lastSeen_self (v : Violation) (t : String)
    (h : v.lastSeenIso = some t) :
    ({ v with lastSeenIso := some t } : Violation) = v := by
  cases v
  simp_all

theorem updOpt_self {α : Type} [DecidableEq α] (cur new : Option α)
    (h : new.isSome → cur = new) : updOpt cur new = (cur, false) := by
  cases new with
  | none => rfl
  | some x =>
    have hc : cur = some x := h rfl
    simp [updOpt, hc]

theorem updOpt_fst {α : Type} [DecidableEq α] (cur new : Option α)
    (h : new.isSome) : (updOpt cur new).1 = new := by
  cases new with
  | none => simp at h
  | some x =>
    simp only [updOpt]
    split_ifs with hc
    · exact hc
    · rfl

theorem updateFields_noop (e d : Violation)
    (h1 : d.title.isSome → e.title = d.title)
    (h2 : d.summary.isSome → e.summary = d.summary)
    (h3 : d.sourceId.isSome → e.sourceId = d.sourceId)
    (h4 : d.policyId.isSome → e.policyId = d.policyId)
    (h5 : d.severity.isSome → e.severity = d.severity)
    (h6 : d.details.isSome → e.details = d.details) :
    updateFields e d = (e, false) := by
  simp only [updateFields]
  rw [updOpt_self e.title d.title h1, updOpt_self e.summary d.summary h2,
      updOpt_self e.sourceId d.sourceId h3, updOpt_self e.policyId d.policyId h4,
      updOpt_self e.severity d.severity h5, updOpt_self e.details d.details h6]
  simp

theorem processOld_matchedFix_noop (dIdx : List (String × Violation))
    (t : String) (e d : Violation) (vid : String)
    (hl : lookupIdx dIdx vid = some d) (hf : MatchedFix d t e) :
    processOld dIdx t e vid = ⟨e, false, false, false⟩ := by
  have hfs : ¬ (e.firstSeenIso = none) := by
    intro hc
    have hs := hf.firstSeen
    rw [hc] at hs
    simp at hs
  simp only [processOld, hl]
  rw [if_neg hfs]
  rw [upd_lastSeen_self e t hf.lastSeen]
  rw [if_neg hf.statusNe]
  rw [updateFields_noop e d hf.titleEq hf.summaryEq hf.sourceIdEq
      hf.policyIdEq hf.severityEq hf.detailsEq]
  simp

theorem mkNew_matchedFix (d : Violation) (t : String)
    (h : d.lastSeenIso = none ∨ d.lastSeenIso = some t) :
    MatchedFix d t (mkNew d t) := by
  refine ⟨?_, ?_, ?_, ?_, ?_, ?_, ?_, ?_, ?_⟩
  · simp [mkNew]
  · rcases h with h | h <;> simp [mkNew, h]
  · simp [mkNew, getStatus]
  all_goals exact fun _ => rfl

theorem processOld_matched_firstSeen (dIdx : List (String × Violation))
    (t : String) (o d : Violation) (vid : String)
    (hl : lookupIdx dIdx vid = some d) :
    (processOld dIdx t o vid).entry.firstSeenIso
      = if o.firstSeenIso = none then some (pyOr o.createdAtIso t)
        else o.firstSeenIso := by
  simp only [processOld, hl]
  split_ifs <;> rfl

theorem processOld_matched_lastSeen (dIdx : List (String × Violation))
    (t : String) (o d : Violation) (vid : String)
    (hl : lookupIdx dIdx vid = some d) :
    (processOld dIdx t o vid).entry.lastSeenIso = some t := by
  simp only [processOld, hl]
  split_ifs <;> rfl

theorem processOld_matched_status (dIdx : List (String × Violation))
    (t : String) (o d : Violation) (vid : String)
    (hl : lookupIdx dIdx vid = some d) :
    (processOld dIdx t o vid).entry.status
      = if getStatus o = "RESOLVED" then some "OPEN" else o.status := by
  simp only [processOld, hl]
  split_ifs <;> rfl

theorem processOld_matched_resolvedAt (dIdx : List (String × Violation))
    (t : String) (o d : Violation) (vid : String)
    (hl : lookupIdx dIdx vid = some d) :
    (processOld dIdx t o vid).entry.resolvedAtIso
      = if getStatus o = "RESOLVED" then none else o.resolvedAtIso := by
  simp only [processOld, hl]
  split_ifs <;> rfl

theorem processOld_matched_title (dIdx : List (String × Violation))
    (t : String) (o d : Violation) (vid : String)
    (hl : lookupIdx dIdx vid = some d) :
    (processOld dIdx t o vid).entry.title = (updOpt o.title d.title).1 := by
  simp only [processOld, hl]
  split_ifs <;> rfl

theorem processOld_matched_summary (dIdx : List (String × Violation))
    (t : String) (o d : Violation) (vid : String)
    (hl : lookupIdx dIdx vid = some d) :
    (processOld dIdx t o vid).entry.summary = (updOpt o.summary d.summary).1 := by
  simp only [processOld, hl]
  split_ifs <;> rfl

theorem processOld_matched_sourceId (dIdx : List (String × Violation))
    (t : String) (o d : Violation) (vid : String)
    (hl : lookupIdx dIdx vid = some d) :
    (processOld dIdx t o vid).entry.sourceId = (updOpt o.sourceId d.sourceId).1 := by
  simp only [processOld, hl]
  split_ifs <;> rfl

theorem processOld_matched_policyId (dIdx : List (String × Violation))
    (t : String) (o d : Violation) (vid : String)
    (hl : lookupIdx dIdx vid = some d) :
    (processOld dIdx t o vid).entry.policyId = (updOpt o.policyId d.policyId).1 := by
  simp only [processOld, hl]
  split_ifs <;> rfl

theorem processOld_matched_severity (dIdx : List (String × Violation))
    (t : String) (o d : Violation) (vid : String)
    (hl : lookupIdx dIdx vid = some d) :
    (processOld dIdx t o vid).entry.severity = (updOpt o.severity d.severity).1 := by
  simp only [processOld, hl]
  split_ifs <;> rfl

theorem processOld_matched_details (dIdx : List (String × Violation))
    (t : String) (o d : Violation) (vid : String)
    (hl : lookupIdx dIdx vid = some d) :
    (processOld dIdx t o vid).entry.details = (updOpt o.details d.details).1 := by
  simp only [processOld, hl]
  split_ifs <;> rfl

theorem processOld_matched_matchedFix (dIdx : List (String × Violation))
    (t : String) (o d : Violation) (vid : String)
    (hl : lookupIdx dIdx vid = some d) :
    MatchedFix d t (processOld dIdx t o vid).entry := by
  refine ⟨?_, ?_, ?_, ?_, ?_, ?_, ?_, ?_, ?_⟩
  · rw [processOld_matched_firstSeen dIdx t o d vid hl]
    split_ifs with h
    · rfl
    · exact Option.ne_none_iff_isSome.mp h
  · exact processOld_matched_lastSeen dIdx t o d vid hl
  · intro hc
    have hc' : (processOld dIdx t o vid).entry.status.getD "OPEN" = "RESOLVED" := hc
    rw [processOld_matched_status dIdx t o d vid hl] at hc'
    by_cases h : getStatus o = "RESOLVED"
    · rw [if_pos h] at hc'
      simp at hc'
    · rw [if_neg h] at hc'
      exact h hc'
  · intro hs
    rw [processOld_matched_title dIdx t o d vid hl]
    exact updOpt_fst _ _ hs
  · intro hs
    rw [processOld_matched_summary dIdx t o d vid hl]
    exact updOpt_fst _ _ hs
  · intro hs
    rw [processOld_matched_sourceId dIdx t o d vid hl]
    exact updOpt_fst _ _ hs
  · intro hs
    rw [processOld_matched_policyId dIdx t o d vid hl]
    exact updOpt_fst _ _ hs
  · intro hs
    rw [processOld_matched_severity dIdx t o d vid hl]
    exact updOpt_fst _ _ hs
  · intro hs
    rw [processOld_matched_details dIdx t o d vid hl]
    exact updOpt_fst _ _ hs

theorem processOld_unmatched_resolved (dIdx : List (String × Violation))
    (t : String) (o : Violation) (vid : String)
    (hl : lookupIdx dIdx vid = none) :
    getStatus (processOld dIdx t o vid).entry = "RESOLVED" := by
  simp only [processOld, hl]
  split_ifs with h
  · simp [getStatus]
  · exact not_not.mp h

theorem processOld_unmatched_noop (dIdx : List (String × Violation))
    (t : String) (e : Violation) (vid : String)
    (hl : lookupIdx dIdx vid = none) (hs : getStatus e = "RESOLVED") :
    processOld dIdx t e vid = ⟨e, false, false, false⟩ := by
  simp only [processOld, hl]
  rw [if_neg (not_not_intro hs)]

/-- C1 (amended): reconciliation is idempotent at a fixed timestamp
provided every detected record's `lastSeenIso` is absent or already
equals that timestamp: if `_reconcile(L, D)` returns `(L', diff)`,
then `_reconcile(L', D)` evaluated at the same timestamp returns a
ledger identical to `L'` and a diff summary with `changed = false`.
(Without the proviso the claim fails: a detected record carrying a
foreign `lastSeenIso` is copied verbatim into the new ledger entry on
the first run — `setdefault` keeps it — and overwritten with `now` on
the second run, so the second ledger differs; see
`C1_counterexample`.) -/
theorem C1_reconcile_idempotent (L D : List Violation) (t : String)
    (hD : ∀ d ∈ D, d.lastSeenIso = none ∨ d.lastSeenIso = some t) :
    (reconcile (reconcile L D t).1 D t).1 = (reconcile L D t).1 ∧
    (reconcile (reconcile L D t).1 D t).2.changed = false := by
  obtain ⟨ns, hns, hnsmem⟩ := pass2_shape (buildIndex L) t (buildIndex D)
      (pass1 (buildIndex D) t L).updated
  have hL' : (reconcile L D t).1 = ns ++ (pass1 (buildIndex D) t L).updated := by
    show (pass2 (buildIndex L) t (buildIndex D)
        (pass1 (buildIndex D) t L).updated).1
      = ns ++ (pass1 (buildIndex D) t L).updated
    rw [hns]
  have hfix : ∀ e ∈ ns ++ (pass1 (buildIndex D) t L).updated,
      ∃ vid, e.id = some vid ∧
        processOld (buildIndex D) t e vid = ⟨e, false, false, false⟩ := by
    intro e he
    rcases List.mem_append.mp he with hn | hu
    · obtain ⟨kd, hkd, hnk, hemk⟩ := hnsmem e hn
      obtain ⟨hkD, hkid⟩ := mem_buildIndex D kd hkd
      have hlk : lookupIdx (buildIndex D) kd.1 = some kd.2 :=
        lookupIdx_of_mem_nodup _ (buildIndex_nodupKeys D) _ _ hkd
      refine ⟨kd.1, ?_, ?_⟩
      · rw [hemk, mkNew_id, hkid]
      · rw [hemk]
        exact processOld_matchedFix_noop _ _ _ _ _ hlk
          (mkNew_matchedFix kd.2 t (hD kd.2 hkD))
    · rw [pass1_updated] at hu
      obtain ⟨o, hoL, hoe⟩ := List.mem_filterMap.mp hu
      cases hoid : o.id with
      | none =>
        rw [hoid] at hoe
        simp at hoe
      | some vid =>
        rw [hoid] at hoe
        have he' : (processOld (buildIndex D) t o vid).entry = e := by
          simpa using hoe
        refine ⟨vid, ?_, ?_⟩
        · rw [← he', processOld_id, hoid]
        · cases hlk : lookupIdx (buildIndex D) vid with
          | some d =>
            rw [← he']
            exact processOld_matchedFix_noop _ _ _ _ _ hlk
              (processOld_matched_matchedFix _ _ _ _ _ hlk)
          | none =>
            rw [← he']
            exact processOld_unmatched_noop _ _ _ _ hlk
              (processOld_unmatched_resolved _ _ _ _ hlk)
  have hp1 : pass1 (buildIndex D) t (ns ++ (pass1 (buildIndex D) t L).updated)
      = ⟨ns ++ (pass1 (buildIndex D) t L).updated, false, 0, 0⟩ :=
    pass1_fixpoint _ _ _ hfix
  have hkeys : ∀ kd ∈ buildIndex D,
      hasKey (buildIndex (ns ++ (pass1 (buildIndex D) t L).updated)) kd.1
        = true := by
    intro kd hkd
    obtain ⟨hkD, hkid⟩ := mem_buildIndex D kd hkd
    rw [hasKey_buildIndex]
    by_cases hex : hasKey (buildIndex L) kd.1
    · rw [hasKey_buildIndex] at hex
      obtain ⟨v, hvL, hvid⟩ := hex
      refine ⟨(processOld (buildIndex D) t v kd.1).entry, ?_, ?_⟩
      · apply List.mem_append.mpr
        right
        rw [pass1_updated]
        exact List.mem_filterMap.mpr ⟨v, hvL, by rw [hvid]; rfl⟩
      · rw [processOld_id, hvid]
    · refine ⟨mkNew kd.2 t, ?_, ?_⟩
      · have hadd := pass2_adds (buildIndex L) t (buildIndex D) kd.1 kd.2
            hkd (by simpa using hex) (pass1 (buildIndex D) t L).updated
        rw [hns] at hadd
        exact hadd
      · rw [mkNew_id, hkid]
  have hp2 := pass2_noop (buildIndex (ns ++ (pass1 (buildIndex D) t L).updated))
      t (buildIndex D) hkeys (ns ++ (pass1 (buildIndex D) t L).updated)
  constructor
  · rw [hL']
    show (pass2 (buildIndex (ns ++ (pass1 (buildIndex D) t L).updated)) t
        (buildIndex D)
        (pass1 (buildIndex D) t
          (ns ++ (pass1 (buildIndex D) t L).updated)).updated).1
      = ns ++ (pass1 (buildIndex D) t L).updated
    rw [hp1]
    dsimp only
    rw [hp2]
  · rw [hL']
    show ((pass1 (buildIndex D) t
          (ns ++ (pass1 (buildIndex D) t L).updated)).changed
        || ((pass2 (buildIndex (ns ++ (pass1 (buildIndex D) t L).updated)) t
            (buildIndex D)
            (pass1 (buildIndex D) t
              (ns ++ (pass1 (buildIndex D) t L).updated)).updated).2 != 0))
      = false
    rw [hp1]
    dsimp only
    rw [hp2]
    simp

theorem processOld_unmatched_entry (dIdx : List (String × Violation))
    (t : String) (o : Violation) (vid : String)
    (hl : lookupIdx dIdx vid = none) :
    (processOld dIdx t o vid).entry
      = if getStatus o ≠ "RESOLVED"
        then { o with status := some "RESOLVED", resolvedAtIso := some t }
        else o := by
  simp only [processOld, hl]
  split_ifs <;> rfl

/-- C3 (amended): reconciliation never destroys identified history:
the returned ledger is a block of newly created entries followed by
exactly one updated entry for every entry of `L` whose id is non-null,
in the same relative order and under the same identity (entries may
change status but are never removed).  Entries whose id is null are
dropped by the loop (scanner.py:601-602), which is the one exception
the original claim misses — see `C3_counterexample`. -/
theorem C3_reconcile_preserves_history (L D : List Violation) (t : String) :
    ∃ ns olds : List Violation,
      (reconcile L D t).1 = ns ++ olds ∧
      olds.map (fun v => v.id)
        = (L.filter (fun v => v.id.isSome)).map (fun v => v.id) := by
  obtain ⟨ns, hns, _⟩ := pass2_shape (buildIndex L) t (buildIndex D)
      (pass1 (buildIndex D) t L).updated
  refine ⟨ns, (pass1 (buildIndex D) t L).updated, ?_, pass1_ids _ _ _⟩
  show (pass2 (buildIndex L) t (buildIndex D)
      (pass1 (buildIndex D) t L).updated).1
    = ns ++ (pass1 (buildIndex D) t L).updated
  rw [hns]

/-- C3 counterexample: an existing ledger entry with a null id is in
the input ledger but absent from the reconciled output — `_reconcile`
does not preserve it (scanner.py:601-602 `continue`). -/
theorem C3_counterexample :
    emptyViolation ∈ ([emptyViolation] : List Violation) ∧
    emptyViolation ∉ (reconcile [emptyViolation] [] "T1").1 := by
  decide

/-- C7: the record invariant `resolvedAt` non-null iff
`status == RESOLVED` is preserved by `_reconcile`: reopening clears
`resolvedAtIso` while setting status `OPEN` (scanner.py:614-617),
resolving sets it while setting status `RESOLVED` (scanner.py:629-631),
and newly created entries are `OPEN` with a null `resolvedAtIso`
(scanner.py:645-646). -/
theorem C7_reconcile_preserves_invariant (L D : List Violation) (t : String)
    (h : ∀ v ∈ L, (v.resolvedAtIso ≠ none ↔ getStatus v = "RESOLVED")) :
    ∀ w ∈ (reconcile L D t).1,
      (w.resolvedAtIso ≠ none ↔ getStatus w = "RESOLVED") := by
  intro w hw
  obtain ⟨ns, hns, hnsmem⟩ := pass2_shape (buildIndex L) t (buildIndex D)
      (pass1 (buildIndex D) t L).updated
  have hL' : (reconcile L D t).1 = ns ++ (pass1 (buildIndex D) t L).updated := by
    show (pass2 (buildIndex L) t (buildIndex D)
        (pass1 (buildIndex D) t L).updated).1
      = ns ++ (pass1 (buildIndex D) t L).updated
    rw [hns]
  rw [hL'] at hw
  rcases List.mem_append.mp hw with hn | hu
  · obtain ⟨kd, _, _, hemk⟩ := hnsmem w hn
    rw [hemk]
    simp [mkNew, getStatus]
  · rw [pass1_updated] at hu
    obtain ⟨o, hoL, hoe⟩ := List.mem_filterMap.mp hu
    cases hoid : o.id with
    | none =>
      rw [hoid] at hoe
      simp at hoe
    | some vid =>
      rw [hoid] at hoe
      have he' : (processOld (buildIndex D) t o vid).entry = w := by
        simpa using hoe
      rw [← he']
      cases hlk : lookupIdx (buildIndex D) vid with
      | some d =>
        have hrs := processOld_matched_resolvedAt (buildIndex D) t o d vid hlk
        have hst := processOld_matched_status (buildIndex D) t o d vid hlk
        show (processOld (buildIndex D) t o vid).entry.resolvedAtIso ≠ none
          ↔ (processOld (buildIndex D) t o vid).entry.status.getD "OPEN"
              = "RESOLVED"
        rw [hrs, hst]
        by_cases hr : getStatus o = "RESOLVED"
        · rw [if_pos hr, if_pos hr]
          simp
        · rw [if_neg hr, if_neg hr]
          exact h o hoL
      | none =>
        have hent := processOld_unmatched_entry (buildIndex D) t o vid hlk
        rw [hent]
        by_cases hr : getStatus o ≠ "RESOLVED"
        · rw [if_pos hr]
          simp [getStatus]
        · rw [if_neg hr]
          exact h o hoL

/-! ## Counting and filtering lemmas for the reopen counter -/

theorem processOld_reopened (dIdx : List (String × Violation)) (t : String)
    (o : Violation) (vid : String) :
    (processOld dIdx t o vid).reopened
      = (hasKey dIdx vid && (getStatus o == "RESOLVED")) := by
  cases hl : lookupIdx dIdx vid with
  | some d =>
    simp only [processOld, hl]
    split_ifs with h <;> simp [hasKey, hl, h]
  | none =>
    simp only [processOld, hl]
    split_ifs <;> simp [hasKey, hl]

theorem pass1_reopened (dIdx : List (String × Violation)) (t : String)
    (l : List Violation) :
    (pass1 dIdx t l).reopened
      = l.countP (fun o =>
          match o.id with
          | some vid => hasKey dIdx vid && (getStatus o == "RESOLVED")
          | none => false) := by
  induction l with
  | nil => rfl
  | cons o rest ih =>
    cases ho : o.id with
    | none => simp [pass1, ho, ih, List.countP_cons]
    | some vid =>
      simp only [pass1, ho, ih, List.countP_cons, processOld_reopened]
      rw [Nat.add_comm]

theorem pass1_filter_id (dIdx : List (String × Violation)) (t : String)
    (l : List Violation) (x : String) :
    (pass1 dIdx t l).updated.filter (fun u => u.id = some x)
      = (l.filter (fun v => v.id = some x)).map
          (fun o => (processOld dIdx t o x).entry) := by
  induction l with
  | nil => rfl
  | cons o rest ih =>
    cases ho : o.id with
    | none =>
      have hno : ¬ (o.id = some x) := by simp [ho]
      simp [pass1, ho, ih, List.filter_cons, hno]
    | some vid =>
      by_cases hx : vid = x
      · subst hx
        have hyes : o.id = some vid := ho
        simp [pass1, ho, ih, List.filter_cons, processOld_id, hyes]
      · have hno : ¬ (o.id = some x) := by simp [ho, hx]
        simp [pass1, ho, ih, List.filter_cons, processOld_id, hno, hx]

theorem countP_and_left (l : List Violation) (x : String)
    (r : Violation → Bool) :
    l.countP (fun o => (o.id == some x) && r o)
      = (l.filter (fun o => o.id = some x)).countP r := by
  induction l with
  | nil => rfl
  | cons o rest ih =>
    by_cases h : o.id = some x
    · simp [List.countP_cons, List.filter_cons, h, ih, Nat.add_comm]
    · simp [List.countP_cons, List.filter_cons, h, ih]

theorem reconcile_reopened_eq (L D : List Violation) (t : String) :
    (reconcile L D t).2.reopened
      = L.countP (fun o =>
          match o.id with
          | some vid => hasKey (buildIndex D) vid && (getStatus o == "RESOLVED")
          | none => false) := by
  show (pass1 (buildIndex D) t L).reopened = _
  exact pass1_reopened _ _ _

/-- C4: resolve/reopen symmetry.  If the ledger holds exactly one
entry for identity `x` and it is OPEN, then reconciling once with `x`
absent from the detection set and then once with `x` present leaves a
final ledger with exactly one entry for `x`, whose `status` is `OPEN`
and whose `resolvedAtIso` is null; across the two calls the reopen
counter attributes exactly one reopen to `x` — none in the first
call, one in the second — and the second call's `reopened` diff field
is accordingly at least 1. -/
theorem C4_resolve_reopen_symmetry (L D1 D2 : List Violation)
    (x : String) (v : Violation) (t1 t2 : String)
    (hL : L.filter (fun w => w.id = some x) = [v])
    (hv : getStatus v = "OPEN")
    (hD1 : ∀ d ∈ D1, d.id ≠ some x)
    (hD2 : ∃ d ∈ D2, d.id = some x) :
    (∃ w : Violation,
      ((reconcile (reconcile L D1 t1).1 D2 t2).1).filter
          (fun u => u.id = some x) = [w] ∧
      getStatus w = "OPEN" ∧ w.resolvedAtIso = none) ∧
    L.countP (reopenedThisCall D1 x) = 0 ∧
    ((reconcile L D1 t1).1).countP (reopenedThisCall D2 x) = 1 ∧
    1 ≤ (reconcile (reconcile L D1 t1).1 D2 t2).2.reopened := by
  have hk1 : hasKey (buildIndex D1) x = false := by
    rw [Bool.eq_false_iff]
    intro hc
    obtain ⟨d, hd, hid⟩ := (hasKey_buildIndex D1 x).mp hc
    exact hD1 d hd hid
  have hlk1 : lookupIdx (buildIndex D1) x = none := by
    cases h2 : lookupIdx (buildIndex D1) x with
    | none => rfl
    | some d =>
      exfalso
      have hc : hasKey (buildIndex D1) x = true := by simp [hasKey, h2]
      rw [hk1] at hc
      exact Bool.false_ne_true hc
  have hvmem : v ∈ L.filter (fun w => w.id = some x) := by
    rw [hL]
    exact List.mem_singleton_self v
  have hvid : v.id = some x := by
    have hp := List.of_mem_filter hvmem
    simpa using hp
  obtain ⟨ns1, hns1, hns1mem⟩ := pass2_shape (buildIndex L) t1 (buildIndex D1)
      (pass1 (buildIndex D1) t1 L).updated
  have hL1 : (reconcile L D1 t1).1
      = ns1 ++ (pass1 (buildIndex D1) t1 L).updated := by
    show (pass2 (buildIndex L) t1 (buildIndex D1)
        (pass1 (buildIndex D1) t1 L).updated).1
      = ns1 ++ (pass1 (buildIndex D1) t1 L).updated
    rw [hns1]
  have hns1x : ns1.filter (fun u => u.id = some x) = [] := by
    rw [List.filter_eq_nil_iff]
    intro e he
    obtain ⟨kd, hkd, hnk, hemk⟩ := hns1mem e he
    obtain ⟨hkD, hkid⟩ := mem_buildIndex D1 kd hkd
    simp only [decide_eq_true_eq]
    intro hc
    rw [hemk, mkNew_id, hkid] at hc
    have hkx : kd.1 = x := Option.some.inj hc
    have hkey : hasKey (buildIndex D1) x = true := by
      rw [← hkx]
      simpa [hasKey] using mem_lookupIdx_isSome _ _ _ hkd
    rw [hk1] at hkey
    exact Bool.false_ne_true hkey
  have hL1x : (reconcile L D1 t1).1.filter (fun u => u.id = some x)
      = [(processOld (buildIndex D1) t1 v x).entry] := by
    rw [hL1, List.filter_append, hns1x, pass1_filter_id, hL]
    simp
  have hv1 : (processOld (buildIndex D1) t1 v x).entry
      = { v with status := some "RESOLVED", resolvedAtIso := some t1 } := by
    rw [processOld_unmatched_entry _ _ _ _ hlk1, if_pos (by simp [hv])]
  have hv1stat : getStatus (processOld (buildIndex D1) t1 v x).entry
      = "RESOLVED" := by
    rw [hv1]
    simp [getStatus]
  have hk2 : hasKey (buildIndex D2) x = true := (hasKey_buildIndex D2 x).mpr hD2
  obtain ⟨d2, hlk2⟩ : ∃ d2, lookupIdx (buildIndex D2) x = some d2 := by
    cases h2 : lookupIdx (buildIndex D2) x with
    | some d => exact ⟨d, rfl⟩
    | none =>
      exfalso
      have hc : hasKey (buildIndex D2) x = false := by simp [hasKey, h2]
      rw [hk2] at hc
      exact Bool.noConfusion hc
  obtain ⟨ns2, hns2, hns2mem⟩ := pass2_shape (buildIndex (reconcile L D1 t1).1)
      t2 (buildIndex D2) (pass1 (buildIndex D2) t2 (reconcile L D1 t1).1).updated
  have hL2 : (reconcile (reconcile L D1 t1).1 D2 t2).1
      = ns2 ++ (pass1 (buildIndex D2) t2 (reconcile L D1 t1).1).updated := by
    show (pass2 (buildIndex (reconcile L D1 t1).1) t2 (buildIndex D2)
        (pass1 (buildIndex D2) t2 (reconcile L D1 t1).1).updated).1
      = ns2 ++ (pass1 (buildIndex D2) t2 (reconcile L D1 t1).1).updated
    rw [hns2]
  have hxinL1 : hasKey (buildIndex (reconcile L D1 t1).1) x = true := by
    rw [hasKey_buildIndex]
    refine ⟨(processOld (buildIndex D1) t1 v x).entry, ?_, ?_⟩
    · exact List.mem_of_mem_filter (hL1x ▸ List.mem_singleton_self _)
    · rw [processOld_id, hvid]
  have hns2x : ns2.filter (fun u => u.id = some x) = [] := by
    rw [List.filter_eq_nil_iff]
    intro e he
    obtain ⟨kd, hkd, hnk, hemk⟩ := hns2mem e he
    obtain ⟨_, hkid⟩ := mem_buildIndex D2 kd hkd
    simp only [decide_eq_true_eq]
    intro hc
    rw [hemk, mkNew_id, hkid] at hc
    have hkx : kd.1 = x := Option.some.inj hc
    rw [hkx, hxinL1] at hnk
    exact Bool.noConfusion hnk
  have hL2x : (reconcile (reconcile L D1 t1).1 D2 t2).1.filter
      (fun u => u.id = some x)
      = [(processOld (buildIndex D2) t2
          (processOld (buildIndex D1) t1 v x).entry x).entry] := by
    rw [hL2, List.filter_append, hns2x, pass1_filter_id, hL1x]
    simp
  have hwstat : getStatus (processOld (buildIndex D2) t2
      (processOld (buildIndex D1) t1 v x).entry x).entry = "OPEN" := by
    show (processOld (buildIndex D2) t2
        (processOld (buildIndex D1) t1 v x).entry x).entry.status.getD "OPEN"
      = "OPEN"
    rw [processOld_matched_status _ _ _ _ _ hlk2, if_pos hv1stat]
    rfl
  have hwres : (processOld (buildIndex D2) t2
      (processOld (buildIndex D1) t1 v x).entry x).entry.resolvedAtIso
      = none := by
    rw [processOld_matched_resolvedAt _ _ _ _ _ hlk2, if_pos hv1stat]
  have hcount1 : L.countP (reopenedThisCall D1 x) = 0 := by
    rw [List.countP_eq_zero]
    intro o _ hc
    simp [reopenedThisCall, hk1] at hc
  have hcount2 : ((reconcile L D1 t1).1).countP (reopenedThisCall D2 x) = 1 := by
    have heq : ((reconcile L D1 t1).1).countP (reopenedThisCall D2 x)
        = (((reconcile L D1 t1).1).filter (fun o => o.id = some x)).countP
            (fun o => hasKey (buildIndex D2) x && (getStatus o == "RESOLVED")) :=
      countP_and_left ((reconcile L D1 t1).1) x
        (fun o => hasKey (buildIndex D2) x && (getStatus o == "RESOLVED"))
    rw [heq, hL1x]
    simp [List.countP_cons, hk2, hv1stat]
  have hcount3 : 1 ≤ (reconcile (reconcile L D1 t1).1 D2 t2).2.reopened := by
    rw [reconcile_reopened_eq]
    calc 1 = ((reconcile L D1 t1).1).countP (reopenedThisCall D2 x) :=
          hcount2.symm
      _ ≤ _ := by
          apply List.countP_mono_left
          intro o _ hc
          simp only [reopenedThisCall, Bool.and_eq_true, beq_iff_eq] at hc
          rw [hc.1]
          simp [hc.2.1, hc.2.2]
  exact ⟨⟨(processOld (buildIndex D2) t2
      (processOld (buildIndex D1) t1 v x).entry x).entry,
    hL2x, hwstat, hwres⟩, hcount1, hcount2, hcount3⟩

/-! ## Lemmas about the scan orchestrator -/

/-- The heuristic detector raises `re.error` on every input: the
phone pattern's character class `[\\d \\-()]` contains the reversed
range `\`–`(`, which `sre_parse` rejects at compile time, and
`re.search` compiles at call time (scanner.py:252). -/
theorem heuristic_always_raises (doc : String) (ps : List Policy)
    (ex : List Violation) :
    heuristicViolationsE doc ps ex = .error "bad character range" := rfl

theorem loadPolicies_bound (env : Env) (s : ScanState) (f : Bool)
    (l : Nat) (hl : policiesMaxMtime env = some l) :
    ∃ m, ((loadPoliciesFromDisk env f s).1).policies_mtime = some m ∧
      l ≤ m := by
  simp only [loadPoliciesFromDisk, hl]
  cases f with
  | false =>
    cases hm : s.policies_mtime with
    | none => exact ⟨l, by simp [reloadPolicies], le_refl l⟩
    | some m =>
      by_cases hle : l ≤ m
      · simp only [hle, if_pos]
        exact ⟨m, hm, hle⟩
      · simp only [hle, reduceIte]
        exact ⟨l, by simp [reloadPolicies], le_refl l⟩
  | true => exact ⟨l, by simp [reloadPolicies], le_refl l⟩

theorem scanOnce_skips (env : Env) (s : ScanState) (m l : Nat)
    (h1 : s.policies_mtime = some m) (h2 : policiesMaxMtime env = some l)
    (h3 : l ≤ m) (h4 : env.docExists = true)
    (h5 : s.doc_mtime = some env.docMtime) :
    scanOnce env s false = (s, .skipped) := by
  have hload : loadPoliciesFromDisk env false s = (s, false) := by
    simp only [loadPoliciesFromDisk, h1, h2]
    simp [h3]
  simp only [scanOnce, hload]
  simp [h4, h5]

/-- C5 (amended): due-gating.  After one `scan_once` call that ran
detection and committed, a second `scan_once(force=False)` against the
same environment (document and policy modification signals unchanged)
performs no detection and returns the state unchanged — provided at
least one policy file is present (a non-null policy modification
signal).  When the policies directory is missing or empty the loader
unconditionally reloads and reports a change (scanner.py:89-91 only
skips when both signals are non-null), so the second call re-runs
detection — see `C5_counterexample`. -/
theorem C5_due_gating (env : Env) (s : ScanState) (force : Bool)
    (hp : (policiesMaxMtime env).isSome)
    (hc : (scanOnce env s force).2 = .committed) :
    scanOnce env (scanOnce env s force).1 false
      = ((scanOnce env s force).1, .skipped) := by
  obtain ⟨l, hl⟩ := Option.isSome_iff_exists.mp hp
  obtain ⟨m, hm, hlm⟩ := loadPolicies_bound env s false l hl
  rcases hlp : loadPoliciesFromDisk env false s with ⟨s1, pc⟩
  rw [hlp] at hm
  simp only at hm
  rcases hres : scanOnce env s force with ⟨s', out⟩
  rw [hres] at hc
  simp only at hc
  subst hc
  by_cases hdoc : env.docExists
  case neg =>
    exfalso
    rw [scanOnce, hlp] at hres
    simp [hdoc] at hres
  case pos =>
    rw [scanOnce, hlp] at hres
    simp only [hdoc, Bool.not_true, if_neg (by simp : ¬ (false = true))] at hres
    split at hres
    case isTrue h =>
      simp at hres
    case isFalse h =>
      split at hres
      case h_1 e heq =>
        simp at hres
      case h_2 detected heq =>
        have hs' : s' = { s1 with
            doc_mtime := some env.docMtime,
            violations := (reconcile s1.violations detected env.nowIso).1,
            last_scan_iso := some env.nowIso,
            last_scan_error := none } := by
          have := (Prod.mk.injEq _ _ _ _).mp hres
          exact this.1.symm
        show scanOnce env s' false = (s', ScanOutcome.skipped)
        apply scanOnce_skips env s' m l
        · rw [hs']
          exact hm
        · exact hl
        · exact hlm
        · exact hdoc
        · rw [hs']

/-- C5 counterexample: with no policy files present (policy
modification signal null), a second `scan_once(force=False)` against
an unchanged environment still runs detection and commits — the
loader reloads unconditionally and reports a change, so the second
call is not a no-op as the claim states. -/
theorem C5_counterexample :
    (scanOnce envNoPolicyFiles initialScanState true).2
      = .committed ∧
    (scanOnce envNoPolicyFiles
        (scanOnce envNoPolicyFiles initialScanState true).1 false).2
      = .committed := by
  decide

/-- C1 counterexample: the claim as stated fails for a detection set
whose record carries its own `lastSeenIso`: `setdefault` keeps the
foreign value on the first run (scanner.py:642) and the second run
overwrites it with `now` (scanner.py:611), so the second ledger is not
identical to the first (the diff still reports `changed = false`). -/
theorem C1_counterexample :
    (reconcile (reconcile [] [dForeignLast] "T1").1 [dForeignLast] "T1").1
      ≠ (reconcile [] [dForeignLast] "T1").1 := by
  decide

/-- C10: when the monitored document is missing, `scan_once` sets
`last_scan_iso` to the current time in addition to `last_scan_error`
(scanner.py:137-140), so the timestamp advances on failed cycles
exactly as the commit path advances it on successful ones
(scanner.py:189) and does not distinguish the last successful scan. -/
theorem C10_missing_doc_timestamp (env : Env) (s : ScanState) (force : Bool)
    (h : env.docExists = false) :
    (scanOnce env s force).1.last_scan_iso = some env.nowIso ∧
    (scanOnce env s force).1.last_scan_error
      = some ("Missing source file: " ++ googleDriveDocPath) ∧
    (scanOnce env s force).2 = .missingDoc := by
  simp [scanOnce, h]

/-- Witness for C10 at a concrete environment. -/
theorem C10_missing_doc_timestamp_witness :
    envMissingDoc.docExists = false ∧
    ((scanOnce envMissingDoc initialScanState false).1.last_scan_iso
        = some envMissingDoc.nowIso ∧
     (scanOnce envMissingDoc initialScanState false).1.last_scan_error
        = some ("Missing source file: " ++ googleDriveDocPath) ∧
     (scanOnce envMissingDoc initialScanState false).2 = .missingDoc) :=
  ⟨rfl, C10_missing_doc_timestamp envMissingDoc initialScanState false rfl⟩

/-- C6: the detection pipeline DOES raise.  When the semantic detector
fails, `_analyze` catches the exception and falls back to the
heuristic detector inside the handler (scanner.py:240-242) — but the
heuristic detector itself raises `re.error` ("bad character range",
from the phone pattern's reversed class range, scanner.py:252), so the
exception propagates to the caller instead of yielding an empty (or
any) candidate list. -/
theorem C6_pipeline_raises_on_fallback (e doc : String) (ps : List Policy)
    (ex : List Violation) :
    analyzeE true (.error e) doc ps ex = .error "bad character range" :=
  heuristic_always_raises doc ps ex

/-- C8: a document containing `"sk_live_abcdef1234567890"` does not
yield a `b-003` violation — the heuristic detector raises `re.error`
at the phone pattern (scanner.py:252) before the token rule
(scanner.py:254) is reached.  The second conjunct shows the token rule
itself would have matched: its own regex accepts the token. -/
theorem C8_token_rule_unreachable (ps : List Policy) (ex : List Violation) :
    heuristicViolationsE docWithToken ps ex = .error "bad character range" ∧
    tokenSearch docWithToken = .ok (some ("sk_live_abcdef1234567890".data)) :=
  ⟨heuristic_always_raises docWithToken ps ex, by decide⟩

/-- C2: a document containing `"cannot delete"` does not yield a
`b-004` violation.  First, the heuristic detector raises `re.error`
at the phone pattern before the retention rule runs; second, even in
isolation the heuristic's retention pattern cannot match — its raw
string doubles every backslash so `\\s` denotes a literal backslash
followed by `s` (scanner.py:255-259) — while the module-level
`RETENTION_REGEX` (scanner.py:22, used for logging at line 158 and the
semantic prompt at line 419) does match the phrase, confirming the
intent. -/
theorem C2_retention_rule_broken :
    heuristicViolationsE docCannotDelete [] [] = .error "bad character range" ∧
    heurRetentionSearch docCannotDelete = .ok none ∧
    (moduleRetentionSearch docCannotDelete).isSome = true :=
  ⟨heuristic_always_raises docCannotDelete [] [], by decide, by decide⟩

/-- C9: two concurrent forced `scan_once` cycles can reconcile
simultaneously.  From the initial state there is an interleaving —
thread 1 acquires the lock, passes the due check and releases; thread
2 does the same; both then run `_analyze`/`_reconcile` outside any
lock (scanner.py:153-185) — reaching a state in which both threads
are in their reconciliation step at once.  No cycle-body mutex exists,
contradicting the claimed mutual-exclusion discipline. -/
theorem C9_concurrent_reconcile_reachable :
    ∃ st : SchedState, SchedReach schedInit st ∧
      st.ph1 = .reconciling ∧ st.ph2 = .reconciling := by
  refine ⟨⟨.reconciling, .reconciling, none⟩, ?_, rfl, rfl⟩
  exact Relation.ReflTransGen.head
    (SchedStep.enter1 ⟨.idle, .idle, none⟩ rfl rfl)
    (Relation.ReflTransGen.head
      (SchedStep.snapshot1 ⟨.inCritical, .idle, some false⟩ rfl rfl)
      (Relation.ReflTransGen.head
        (SchedStep.enter2 ⟨.detecting, .idle, none⟩ rfl rfl)
        (Relation.ReflTransGen.head
          (SchedStep.snapshot2 ⟨.detecting, .inCritical, some true⟩ rfl rfl)
          (Relation.ReflTransGen.head
            (SchedStep.toReconcile1 ⟨.detecting, .detecting, none⟩ rfl)
            (Relation.ReflTransGen.head
              (SchedStep.toReconcile2 ⟨.reconciling, .detecting, none⟩ rfl)
              Relation.ReflTransGen.refl)))))

/-- Witness for C1 at a concrete ledger and detection set. -/
theorem C1_reconcile_idempotent_witness :
    (∀ d ∈ ([dRecA, dRecB] : List Violation),
      d.lastSeenIso = none ∨ d.lastSeenIso = some "T1") ∧
    ((reconcile (reconcile [vResolvedA] [dRecA, dRecB] "T1").1
        [dRecA, dRecB] "T1").1
      = (reconcile [vResolvedA] [dRecA, dRecB] "T1").1 ∧
     (reconcile (reconcile [vResolvedA] [dRecA, dRecB] "T1").1
        [dRecA, dRecB] "T1").2.changed = false) :=
  ⟨by decide, C1_reconcile_idempotent [vResolvedA] [dRecA, dRecB] "T1" (by decide)⟩

/-- Witness for C4 at a concrete ledger and two detection sets. -/
theorem C4_resolve_reopen_symmetry_witness :
    (([vOpenX] : List Violation).filter (fun w => w.id = some "x") = [vOpenX] ∧
     getStatus vOpenX = "OPEN" ∧
     (∀ d ∈ ([] : List Violation), d.id ≠ some "x") ∧
     (∃ d ∈ ([dDetX] : List Violation), d.id = some "x")) ∧
    ((∃ w : Violation,
        ((reconcile (reconcile [vOpenX] [] "T1").1 [dDetX] "T2").1).filter
            (fun u => u.id = some "x") = [w] ∧
        getStatus w = "OPEN" ∧ w.resolvedAtIso = none) ∧
     ([vOpenX] : List Violation).countP (reopenedThisCall [] "x") = 0 ∧
     ((reconcile [vOpenX] [] "T1").1).countP (reopenedThisCall [dDetX] "x")
        = 1 ∧
     1 ≤ (reconcile (reconcile [vOpenX] [] "T1").1 [dDetX] "T2").2.reopened) :=
  ⟨⟨by decide, by decide, by decide, by decide⟩,
   C4_resolve_reopen_symmetry [vOpenX] [] [dDetX] "x" vOpenX "T1" "T2"
     (by decide) (by decide) (by decide) (by decide)⟩

/-- Witness for C7 at a concrete ledger and detection set. -/
theorem C7_reconcile_preserves_invariant_witness :
    (∀ v ∈ ([vResolvedA, vOpenX] : List Violation),
      (v.resolvedAtIso ≠ none ↔ getStatus v = "RESOLVED")) ∧
    (∀ w ∈ (reconcile [vResolvedA, vOpenX] [dRecA] "T1").1,
      (w.resolvedAtIso ≠ none ↔ getStatus w = "RESOLVED")) :=
  ⟨by decide, C7_reconcile_preserves_invariant [vResolvedA, vOpenX] [dRecA] "T1"
    (by decide)⟩

/-- Witness for C5 at a concrete environment with one policy file. -/
theorem C5_due_gating_witness :
    ((policiesMaxMtime envOnePolicyFile).isSome = true ∧
     (scanOnce envOnePolicyFile initialScanState true).2 = .committed) ∧
    scanOnce envOnePolicyFile
        (scanOnce envOnePolicyFile initialScanState true).1 false
      = ((scanOnce envOnePolicyFile initialScanState true).1, .skipped) :=
  ⟨⟨by decide, by decide⟩,
   C5_due_gating envOnePolicyFile initialScanState true (by decide) (by decide)⟩
